import Mathlib

/-!
Verification of the Veltix wire codec and connection runtime.

Shallow embedding of the Python sources:
  * `veltix/network/request.py`  — `Request.compile`, `Request.parse`
  * `veltix/network/types.py`    — `MessageType`, `MessageTypeRegistry`
  * `veltix/network/system_types.py` — reserved system message types
  * `veltix/network/sender.py`   — `Sender.send`, `Sender.broadcast`
  * `veltix/utils/network.py`    — `recv`
  * `veltix/client/client.py`    — `Client.send_and_wait`, `Client.handle_client`
  * `veltix/server/server.py`    — `Server.send_and_wait`, `Server.handle_client`,
    accept loop and `close_client`

Bytes are `List Nat` with each entry an octet.  SHA-256 (called through
Python's `hashlib`) is implemented concretely below, following FIPS 180-4,
so frames evaluate on concrete inputs.  MD5 (also `hashlib`, used only for
non-hex correlation ids) is kept as an explicit function parameter of the
model.
-/

namespace Veltix

/-- Bytes on the wire: each entry is one octet, `0 ≤ b < 256`. -/
abbrev Bytes := List Nat

/-- Big-endian packing of `n` into `w` bytes (Python `struct.pack` with the
big-endian formats `>H`, `>I`, `>Q`); encodes `n % 256 ^ w`. -/
def toBytesBE : Nat → Nat → Bytes
  | 0, _ => []
  | w + 1, n => toBytesBE w (n / 256) ++ [n % 256]

/-- Big-endian unpacking (Python `struct.unpack`). -/
def fromBytesBE (bs : Bytes) : Nat := bs.foldl (fun acc b => acc * 256 + b) 0

theorem toBytesBE_length (w n : Nat) : (toBytesBE w n).length = w := by
  induction w generalizing n with
  | zero => rfl
  | succ w ih => simp [toBytesBE, ih]

theorem fromBytesBE_append_single (bs : Bytes) (b : Nat) :
    fromBytesBE (bs ++ [b]) = 256 * fromBytesBE bs + b := by
  simp only [fromBytesBE, List.foldl_append, List.foldl_cons, List.foldl_nil]
  ring

theorem fromBytesBE_toBytesBE (w n : Nat) (h : n < 256 ^ w) :
    fromBytesBE (toBytesBE w n) = n := by
  induction w generalizing n with
  | zero =>
    interval_cases n
    rfl
  | succ w ih =>
    have hdiv : n / 256 < 256 ^ w := by
      rw [Nat.div_lt_iff_lt_mul (by norm_num)]
      calc n < 256 ^ (w + 1) := h
        _ = 256 ^ w * 256 := by ring
    simp only [toBytesBE, fromBytesBE_append_single, ih (n / 256) hdiv]
    omega

/-! ### SHA-256 (FIPS 180-4), as computed by Python `hashlib.sha256` -/

/-- Truncation to a 32-bit word. -/
def m32 (n : Nat) : Nat := n % 4294967296

/-- Rotate a 32-bit word right by `k` bit positions. -/
def rotr (k x : Nat) : Nat := (x >>> k) ||| m32 (x <<< (32 - k))

/-- The eight working variables of the SHA-256 compression function. -/
structure Sha256State where
  a : Nat
  b : Nat
  c : Nat
  d : Nat
  e : Nat
  f : Nat
  g : Nat
  h : Nat

/-- Initial hash state of SHA-256. -/
def sha256Init : Sha256State :=
  ⟨1779033703, 3144134277, 1013904242, 2773480762,
   1359893119, 2600822924, 528734635, 1541459225⟩

/-- Round constants of SHA-256 (decimal form of the FIPS 180-4 table). -/
def sha256K : List Nat :=
  [1116352408, 1899447441, 3049323471, 3921009573,
   961987163, 1508970993, 2453635748, 2870763221,
   3624381080, 310598401, 607225278, 1426881987,
   1925078388, 2162078206, 2614888103, 3248222580,
   3835390401, 4022224774, 264347078, 604807628,
   770255983, 1249150122, 1555081692, 1996064986,
   2554220882, 2821834349, 2952996808, 3210313671,
   3336571891, 3584528711, 113926993, 338241895,
   666307205, 773529912, 1294757372, 1396182291,
   1695183700, 1986661051, 2177026350, 2456956037,
   2730485921, 2820302411, 3259730800, 3345764771,
   3516065817, 3600352804, 4094571909, 275423344,
   430227734, 506948616, 659060556, 883997877,
   958139571, 1322822218, 1537002063, 1747873779,
   1955562222, 2024104815, 2227730452, 2361852424,
   2428436474, 2756734187, 3204031479, 3329325298]

/-- One SHA-256 round on the working variables, with schedule word `w` and
round constant `k`. -/
def sha256Round (s : Sha256State) (w k : Nat) : Sha256State :=
  let S1 := rotr 6 s.e ^^^ rotr 11 s.e ^^^ rotr 25 s.e
  let ch := (s.e &&& s.f) ^^^ ((s.e ^^^ 4294967295) &&& s.g)
  let temp1 := m32 (s.h + S1 + ch + k + w)
  let S0 := rotr 2 s.a ^^^ rotr 13 s.a ^^^ rotr 22 s.a
  let maj := (s.a &&& s.b) ^^^ (s.a &&& s.c) ^^^ (s.b &&& s.c)
  let temp2 := m32 (S0 + maj)
  ⟨m32 (temp1 + temp2), s.a, s.b, s.c, m32 (s.d + temp1), s.e, s.f, s.g⟩

/-- Message-schedule extension, keeping the schedule in reverse order so the
most recent word is at the head. -/
def sha256ExtendRev : Nat → List Nat → List Nat
  | 0, r => r
  | n + 1, r =>
    let w15 := r.getD 14 0
    let w2 := r.getD 1 0
    let s0 := rotr 7 w15 ^^^ rotr 18 w15 ^^^ (w15 >>> 3)
    let s1 := rotr 17 w2 ^^^ rotr 19 w2 ^^^ (w2 >>> 10)
    sha256ExtendRev n (m32 (r.getD 15 0 + s0 + r.getD 6 0 + s1) :: r)

/-- The 64-word message schedule of one 64-byte chunk. -/
def sha256Schedule (chunk : Bytes) : List Nat :=
  let w16 := (List.range 16).map (fun i => fromBytesBE ((chunk.drop (4 * i)).take 4))
  (sha256ExtendRev 48 w16.reverse).reverse

/-- The SHA-256 compression function on one 64-byte chunk. -/
def sha256Compress (H : Sha256State) (chunk : Bytes) : Sha256State :=
  let s := ((sha256Schedule chunk).zip sha256K).foldl
    (fun s p => sha256Round s p.1 p.2) H
  ⟨m32 (H.a + s.a), m32 (H.b + s.b), m32 (H.c + s.c), m32 (H.d + s.d),
   m32 (H.e + s.e), m32 (H.f + s.f), m32 (H.g + s.g), m32 (H.h + s.h)⟩

/-- Fold the compression function over the 64-byte chunks of the padded
message; the fuel argument is an upper bound on the number of steps. -/
def sha256Chunks : Nat → Sha256State → Bytes → Sha256State
  | 0, H, _ => H
  | fuel + 1, H, m =>
    if m.isEmpty then H
    else sha256Chunks fuel (sha256Compress H (m.take 64)) (m.drop 64)

/-- SHA-256 padding: a `0x80` byte, zeros to 56 mod 64, then the bit length
as an 8-byte big-endian integer. -/
def sha256Pad (msg : Bytes) : Bytes :=
  msg ++ 128 :: List.replicate ((119 - msg.length % 64) % 64) 0
    ++ toBytesBE 8 (8 * msg.length)

/-- SHA-256 digest of a byte string, as its 32 digest bytes
(`hashlib.sha256(msg).digest()`). -/
def sha256 (msg : Bytes) : Bytes :=
  let p := sha256Pad msg
  let s := sha256Chunks p.length sha256Init p
  toBytesBE 4 s.a ++ toBytesBE 4 s.b ++ toBytesBE 4 s.c ++ toBytesBE 4 s.d ++
    toBytesBE 4 s.e ++ toBytesBE 4 s.f ++ toBytesBE 4 s.g ++ toBytesBE 4 s.h

theorem sha256_length (msg : Bytes) : (sha256 msg).length = 32 := by
  simp [sha256, toBytesBE_length]

/-! ### Hex strings and the correlation-id rendering -/

/-- The hexadecimal digit characters accepted by `Request.compile`
(membership in `"0123456789abcdefABCDEF"`). -/
def isHexDigitChar (c : Char) : Bool := "0123456789abcdefABCDEF".data.contains c

/-- Numeric value of a hexadecimal digit character (0 on non-hex input). -/
def hexVal (c : Char) : Nat :=
  if '0' ≤ c ∧ c ≤ '9' then c.toNat - '0'.toNat
  else if 'a' ≤ c ∧ c ≤ 'f' then c.toNat - 'a'.toNat + 10
  else if 'A' ≤ c ∧ c ≤ 'F' then c.toNat - 'A'.toNat + 10
  else 0

/-- Python `bytes.fromhex`: consecutive pairs of hex digits to bytes. -/
def fromhex : List Char → Bytes
  | c1 :: c2 :: rest => (16 * hexVal c1 + hexVal c2) :: fromhex rest
  | _ => []

/-- Lowercase hex digit character for a nibble. -/
def hexChar (n : Nat) : Char := "0123456789abcdef".data.getD n '0'

/-- Python `bytes.hex()`: lowercase hex rendering, two characters per byte. -/
def bytesToHex : Bytes → List Char
  | [] => []
  | b :: rest => hexChar (b / 16) :: hexChar (b % 16) :: bytesToHex rest

/-- The hyphenated rendering used by `Request.parse` to rebuild a request id
from its 16 wire bytes: `hex[:8]-hex[8:12]-hex[12:16]-hex[16:20]-hex[20:]`
over the lowercase hex string of the bytes. -/
def renderUuid (bs : Bytes) : String :=
  let hx := bytesToHex bs
  String.mk (hx.take 8 ++ '-' :: ((hx.drop 8).take 4 ++ '-' ::
    ((hx.drop 12).take 4 ++ '-' :: ((hx.drop 16).take 4 ++ '-' :: hx.drop 20))))

/-! ### Message types and the registry (`veltix/network/types.py`) -/

/-- Python `MessageType`: protocol code (constructor-checked to lie in
`[0, 65535]`), name, optional description. -/
structure MessageType where
  code : Nat
  name : String
  description : Option String := none
deriving DecidableEq

/-- Well-formedness of the `MessageTypeRegistry` contents: `register` stores
a type under its own `code` key, and the `MessageType` constructor enforces
the `[0, 65535]` range before registration. -/
def RegistryWF (reg : Nat → Option MessageType) : Prop :=
  ∀ c t, reg c = some t → t.code = c ∧ c ≤ 65535

/-- Reserved system type `PING` (`system_types.py`). -/
def PING : MessageType := ⟨0, "ping", some "Request latency measurement"⟩

/-- Reserved system type `PONG` (`system_types.py`). -/
def PONG : MessageType := ⟨1, "pong", some "Response to PING request"⟩

/-- Reserved system type `HEARTBEAT` (`system_types.py`). -/
def HEARTBEAT : MessageType := ⟨2, "heartbeat", some "Keep-alive message"⟩

/-- Reserved system type `HELLO` (`system_types.py`). -/
def HELLO : MessageType := ⟨10, "hello", some "Initial handshake"⟩

/-- Reserved system type `ERROR` (`system_types.py`). -/
def ERROR : MessageType := ⟨20, "error", some "Generic error message"⟩

/-- Reserved system type `INVALID_REQUEST` (`system_types.py`). -/
def INVALID_REQUEST : MessageType := ⟨21, "invalid_request", some "Malformed request"⟩

/-- The registry contents after `system_types.py` has been imported: the six
reserved types, each stored under its own code. -/
def systemRegistry (c : Nat) : Option MessageType :=
  if c = 0 then some PING
  else if c = 1 then some PONG
  else if c = 2 then some HEARTBEAT
  else if c = 10 then some HELLO
  else if c = 20 then some ERROR
  else if c = 21 then some INVALID_REQUEST
  else none

theorem systemRegistry_wf : RegistryWF systemRegistry := by
  intro c t h
  simp only [systemRegistry] at h
  split_ifs at h with h0 h1 h2 h10 h20 h21 <;>
    first
    | exact Option.noConfusion h
    | (injection h with h
       subst h
       subst_vars
       decide)

/-! ### Requests, responses and the wire codec (`veltix/network/request.py`) -/

/-- Python `Request`: outbound message — type, payload bytes, correlation id. -/
structure Request where
  type : MessageType
  content : Bytes
  request_id : String
deriving DecidableEq

/-- Python `Response`: a received message with its metadata, as produced by
`Request.parse`. -/
structure Response where
  type : MessageType
  content : Bytes
  timestamp : Nat
  hash : Bytes
  received_at : Nat
  request_id : String
deriving DecidableEq

/-- The distinct `RequestError` raise sites in `request.py`. -/
inductive RequestError where
  | contentTooLarge
  | dataTooShort
  | hashMismatch
  | sizeMismatch
  | unknownTypeCode
deriving DecidableEq

/-- The correlation-id wire bytes chosen by `Request.compile`: the literal
16 bytes when the id with hyphens stripped is exactly 32 hex digits,
otherwise the MD5 digest of the id string (`hashlib.md5`, an external
library call, is a parameter of the model). -/
def requestIdBytes (md5 : String → Bytes) (request_id : String) : Bytes :=
  let clean := request_id.data.filter (fun c => c ≠ '-')
  if clean.length = 32 ∧ clean.all isHexDigitChar then fromhex clean
  else md5 request_id

/-- Python `Request.compile`: size check against `2 ^ 32 - 1`, then the 62-byte
header — type code (2, big-endian), payload length (4), SHA-256 digest of
the payload (32), send timestamp (8), correlation-id bytes (16) — followed
by the payload.  `now` is the machine clock read `int(time.time() * 1000)`. -/
def compile (md5 : String → Bytes) (now : Nat) (req : Request) :
    Except RequestError Bytes :=
  if req.content.length > 4294967295 then .error .contentTooLarge
  else
    .ok (toBytesBE 2 req.type.code ++ toBytesBE 4 req.content.length ++
      sha256 req.content ++ toBytesBE 8 now ++
      requestIdBytes md5 req.request_id ++ req.content)

/-- Python `Request.parse`: reject frames shorter than 62 bytes, split the header
off, unpack its fields, rebuild the hyphenated request id, then check — in
this order — the recomputed SHA-256 digest, the declared payload length,
and the registry lookup of the type code.  `reg` is the
`MessageTypeRegistry` contents and `received_at` the local clock read. -/
def parse (reg : Nat → Option MessageType) (received_at : Nat) (data : Bytes) :
    Except RequestError Response :=
  if data.length < 62 then .error .dataTooShort
  else
    let header := data.take 62
    let content := data.drop 62
    let code := fromBytesBE (header.take 2)
    let size := fromBytesBE ((header.drop 2).take 4)
    let hashReceived := (header.drop 6).take 32
    let timestamp := fromBytesBE ((header.drop 38).take 8)
    let request_id := renderUuid ((header.drop 46).take 16)
    if sha256 content ≠ hashReceived then .error .hashMismatch
    else if content.length ≠ size then .error .sizeMismatch
    else
      match reg code with
      | none => .error .unknownTypeCode
      | some t => .ok ⟨t, content, timestamp, hashReceived, received_at, request_id⟩

/-- MD5 stand-in used only to instantiate closed statements whose inputs
never reach the MD5 branch (their ids are 32-hex); any 16-byte function
would do. -/
def md5Stub (_s : String) : Bytes := List.replicate 16 0

/-! ### Lemmas about hex digits and the correlation-id rendering -/

theorem fromhex_length : ∀ l : List Char, (fromhex l).length = l.length / 2
  | [] => rfl
  | [_] => by simp [fromhex]
  | _ :: _ :: rest => by
    simp only [fromhex, List.length_cons, fromhex_length rest]
    omega

theorem requestIdBytes_length (md5 : String → Bytes)
    (hmd5 : ∀ s, (md5 s).length = 16) (id : String) :
    (requestIdBytes md5 id).length = 16 := by
  simp only [requestIdBytes]
  split
  · next h => rw [fromhex_length, h.1]
  · exact hmd5 id

theorem hexChar_isHexDigitChar (n : Nat) : isHexDigitChar (hexChar n) = true := by
  rcases Nat.lt_or_ge n 16 with h | h
  · interval_cases n <;> decide
  · rw [hexChar, List.getD_eq_default]
    · decide
    · have : ("0123456789abcdef".data).length = 16 := rfl
      omega

theorem hexChar_ne_hyphen (n : Nat) : hexChar n ≠ '-' := by
  rcases Nat.lt_or_ge n 16 with h | h
  · interval_cases n <;> decide
  · rw [hexChar, List.getD_eq_default]
    · decide
    · have : ("0123456789abcdef".data).length = 16 := rfl
      omega

theorem hexVal_hexChar (n : Nat) (h : n < 16) : hexVal (hexChar n) = n := by
  interval_cases n <;> decide

theorem bytesToHex_length (bs : Bytes) : (bytesToHex bs).length = 2 * bs.length := by
  induction bs with
  | nil => rfl
  | cons b rest ih =>
    simp only [bytesToHex, List.length_cons, ih]
    omega

theorem bytesToHex_all_hex (bs : Bytes) :
    ∀ c ∈ bytesToHex bs, isHexDigitChar c = true := by
  induction bs with
  | nil => intro c hc; cases hc
  | cons b rest ih =>
    intro c hc
    rcases hc with _ | ⟨_, hc⟩
    · exact hexChar_isHexDigitChar _
    · rcases hc with _ | ⟨_, hc⟩
      · exact hexChar_isHexDigitChar _
      · exact ih c hc

theorem bytesToHex_ne_hyphen (bs : Bytes) : ∀ c ∈ bytesToHex bs, c ≠ '-' := by
  induction bs with
  | nil => intro c hc; cases hc
  | cons b rest ih =>
    intro c hc
    rcases hc with _ | ⟨_, hc⟩
    · exact hexChar_ne_hyphen _
    · rcases hc with _ | ⟨_, hc⟩
      · exact hexChar_ne_hyphen _
      · exact ih c hc

theorem fromhex_bytesToHex (bs : Bytes) (h : ∀ b ∈ bs, b < 256) :
    fromhex (bytesToHex bs) = bs := by
  induction bs with
  | nil => rfl
  | cons b rest ih =>
    have hb : b < 256 := h b (by simp)
    have hdiv : b / 16 < 16 := by omega
    have hmod : b % 16 < 16 := Nat.mod_lt _ (by norm_num)
    simp only [bytesToHex, fromhex, hexVal_hexChar _ hdiv, hexVal_hexChar _ hmod]
    rw [show 16 * (b / 16) + b % 16 = b by omega,
      ih (fun x hx => h x (by simp [hx]))]

theorem uuid_reassemble (l : List Char) :
    l.take 8 ++ ((l.drop 8).take 4 ++ ((l.drop 12).take 4 ++
      ((l.drop 16).take 4 ++ l.drop 20))) = l := by
  have h1 : (l.drop 16).take 4 ++ l.drop 20 = l.drop 16 := by
    have h := List.take_append_drop 4 (l.drop 16)
    rw [List.drop_drop] at h
    norm_num at h
    exact h
  have h2 : (l.drop 12).take 4 ++ l.drop 16 = l.drop 12 := by
    have h := List.take_append_drop 4 (l.drop 12)
    rw [List.drop_drop] at h
    norm_num at h
    exact h
  have h3 : (l.drop 8).take 4 ++ l.drop 12 = l.drop 8 := by
    have h := List.take_append_drop 4 (l.drop 8)
    rw [List.drop_drop] at h
    norm_num at h
    exact h
  rw [h1, h2, h3, List.take_append_drop]

theorem filter_hyphen_cons (l : List Char) :
    ('-' :: l).filter (fun c => c ≠ '-') = l.filter (fun c => c ≠ '-') := by
  simp

theorem clean_renderUuid (bs : Bytes) :
    (renderUuid bs).data.filter (fun c => c ≠ '-') = bytesToHex bs := by
  have hmk : (renderUuid bs).data = (bytesToHex bs).take 8 ++ '-' ::
      (((bytesToHex bs).drop 8).take 4 ++ '-' ::
      (((bytesToHex bs).drop 12).take 4 ++ '-' ::
      (((bytesToHex bs).drop 16).take 4 ++ '-' :: (bytesToHex bs).drop 20))) := rfl
  have hkeep : ∀ l : List Char, (∀ c ∈ l, c ≠ '-') →
      l.filter (fun c => c ≠ '-') = l := by
    intro l hl
    apply List.filter_eq_self.mpr
    intro c hc
    simpa using hl c hc
  have hx := bytesToHex_ne_hyphen bs
  rw [hmk, List.filter_append, filter_hyphen_cons, List.filter_append,
    filter_hyphen_cons, List.filter_append, filter_hyphen_cons,
    List.filter_append, filter_hyphen_cons]
  rw [hkeep _ (fun c hc => hx c (List.take_subset _ _ hc)),
    hkeep _ (fun c hc => hx c (List.drop_subset _ _ (List.take_subset _ _ hc))),
    hkeep _ (fun c hc => hx c (List.drop_subset _ _ (List.take_subset _ _ hc))),
    hkeep _ (fun c hc => hx c (List.drop_subset _ _ (List.take_subset _ _ hc))),
    hkeep _ (fun c hc => hx c (List.drop_subset _ _ hc))]
  exact uuid_reassemble _

theorem requestIdBytes_renderUuid (md5 : String → Bytes) (bs : Bytes)
    (hlen : bs.length = 16) (hb : ∀ b ∈ bs, b < 256) :
    requestIdBytes md5 (renderUuid bs) = bs := by
  simp only [requestIdBytes, clean_renderUuid]
  rw [if_pos]
  · exact fromhex_bytesToHex bs hb
  · constructor
    · rw [bytesToHex_length, hlen]
    · exact List.all_eq_true.mpr (bytesToHex_all_hex bs)

/-! ### Evaluating `parse` on a framed byte string -/

theorem compile_eq_ok (md5 : String → Bytes) (now : Nat) (req : Request)
    (h : req.content.length ≤ 4294967295) :
    compile md5 now req = .ok (toBytesBE 2 req.type.code ++
      (toBytesBE 4 req.content.length ++ (sha256 req.content ++
      (toBytesBE 8 now ++ (requestIdBytes md5 req.request_id ++ req.content))))) := by
  simp only [compile]
  rw [if_neg (show ¬ req.content.length > 4294967295 by omega)]
  simp [List.append_assoc]

theorem compile_ok_inv (md5 : String → Bytes) (now : Nat) (req : Request)
    (frame : Bytes) (h : compile md5 now req = .ok frame) :
    req.content.length ≤ 4294967295 ∧
      frame = toBytesBE 2 req.type.code ++
        (toBytesBE 4 req.content.length ++ (sha256 req.content ++
        (toBytesBE 8 now ++ (requestIdBytes md5 req.request_id ++ req.content)))) := by
  by_cases hc : req.content.length > 4294967295
  · rw [compile, if_pos hc] at h
    exact Except.noConfusion h
  · refine ⟨by omega, ?_⟩
    rw [compile_eq_ok md5 now req (by omega)] at h
    injection h with h
    exact h.symm

theorem parse_frame_eval (reg : Nat → Option MessageType) (ra code len ts : Nat)
    (hash idB C : Bytes) (l32 : hash.length = 32) (l16 : idB.length = 16) :
    parse reg ra (toBytesBE 2 code ++ (toBytesBE 4 len ++ (hash ++
        (toBytesBE 8 ts ++ (idB ++ C))))) =
      if sha256 C ≠ hash then .error .hashMismatch
      else if C.length ≠ fromBytesBE (toBytesBE 4 len) then .error .sizeMismatch
      else
        match reg (fromBytesBE (toBytesBE 2 code)) with
        | none => .error .unknownTypeCode
        | some t =>
          .ok ⟨t, C, fromBytesBE (toBytesBE 8 ts), hash, ra, renderUuid idB⟩ := by
  have l2 : (toBytesBE 2 code).length = 2 := toBytesBE_length 2 code
  have l4 : (toBytesBE 4 len).length = 4 := toBytesBE_length 4 len
  have l8 : (toBytesBE 8 ts).length = 8 := toBytesBE_length 8 ts
  have hsplit : toBytesBE 2 code ++ (toBytesBE 4 len ++ (hash ++
      (toBytesBE 8 ts ++ (idB ++ C)))) =
      (toBytesBE 2 code ++ (toBytesBE 4 len ++ (hash ++ (toBytesBE 8 ts ++ idB)))) ++ C := by
    simp [List.append_assoc]
  have hHlen : (toBytesBE 2 code ++ (toBytesBE 4 len ++ (hash ++
      (toBytesBE 8 ts ++ idB)))).length = 62 := by
    simp [List.length_append, l2, l4, l8, l32, l16]
  rw [hsplit]
  have htake := @List.take_left' _ _ C _ hHlen
  have hdrop := @List.drop_left' _ _ C _ hHlen
  have s2 : (toBytesBE 2 code ++ (toBytesBE 4 len ++ (hash ++
      (toBytesBE 8 ts ++ idB)))).take 2 = toBytesBE 2 code := List.take_left' l2
  have d2 := @List.drop_left' _ _ (toBytesBE 4 len ++ (hash ++ (toBytesBE 8 ts ++ idB))) _ l2
  have s4 : ((toBytesBE 2 code ++ (toBytesBE 4 len ++ (hash ++
      (toBytesBE 8 ts ++ idB)))).drop 2).take 4 = toBytesBE 4 len := by
    rw [d2]
    exact List.take_left' l4
  have d6 : (toBytesBE 2 code ++ (toBytesBE 4 len ++ (hash ++
      (toBytesBE 8 ts ++ idB)))).drop 6 = hash ++ (toBytesBE 8 ts ++ idB) := by
    have h := List.drop_drop 4 2 (toBytesBE 2 code ++ (toBytesBE 4 len ++ (hash ++
      (toBytesBE 8 ts ++ idB))))
    rw [d2, List.drop_left' l4] at h
    norm_num at h
    exact h.symm
  have s32 : ((toBytesBE 2 code ++ (toBytesBE 4 len ++ (hash ++
      (toBytesBE 8 ts ++ idB)))).drop 6).take 32 = hash := by
    rw [d6]
    exact List.take_left' l32
  have d38 : (toBytesBE 2 code ++ (toBytesBE 4 len ++ (hash ++
      (toBytesBE 8 ts ++ idB)))).drop 38 = toBytesBE 8 ts ++ idB := by
    have h := List.drop_drop 32 6 (toBytesBE 2 code ++ (toBytesBE 4 len ++ (hash ++
      (toBytesBE 8 ts ++ idB))))
    rw [d6, List.drop_left' l32] at h
    norm_num at h
    exact h.symm
  have s8 : ((toBytesBE 2 code ++ (toBytesBE 4 len ++ (hash ++
      (toBytesBE 8 ts ++ idB)))).drop 38).take 8 = toBytesBE 8 ts := by
    rw [d38]
    exact List.take_left' l8
  have d46 : (toBytesBE 2 code ++ (toBytesBE 4 len ++ (hash ++
      (toBytesBE 8 ts ++ idB)))).drop 46 = idB := by
    have h := List.drop_drop 8 38 (toBytesBE 2 code ++ (toBytesBE 4 len ++ (hash ++
      (toBytesBE 8 ts ++ idB))))
    rw [d38, List.drop_left' l8] at h
    norm_num at h
    exact h.symm
  have s16 : ((toBytesBE 2 code ++ (toBytesBE 4 len ++ (hash ++
      (toBytesBE 8 ts ++ idB)))).drop 46).take 16 = idB := by
    rw [d46, ← l16, List.take_length]
  simp only [parse]
  rw [if_neg (by
    rw [List.length_append, hHlen]
    omega)]
  rw [htake, hdrop, s2, s4, s32, s8, s16]

theorem parse_frame_ok (reg : Nat → Option MessageType) (ra code len ts : Nat)
    (hash idB C : Bytes) (t : MessageType)
    (l32 : hash.length = 32) (l16 : idB.length = 16)
    (hhash : hash = sha256 C) (hlen : len = C.length)
    (hmax : C.length ≤ 4294967295) (hreg : reg code = some t) (hcode : code < 65536) :
    parse reg ra (toBytesBE 2 code ++ (toBytesBE 4 len ++ (hash ++
        (toBytesBE 8 ts ++ (idB ++ C))))) =
      .ok ⟨t, C, fromBytesBE (toBytesBE 8 ts), hash, ra, renderUuid idB⟩ := by
  rw [parse_frame_eval reg ra code len ts hash idB C l32 l16]
  rw [if_neg (by rw [hhash]; simp)]
  rw [fromBytesBE_toBytesBE 4 len (by omega), fromBytesBE_toBytesBE 2 code (by omega)]
  rw [if_neg (by omega), hreg]

theorem parse_frame_hashMismatch (reg : Nat → Option MessageType)
    (ra code len ts : Nat) (hash idB C : Bytes)
    (l32 : hash.length = 32) (l16 : idB.length = 16) (hne : sha256 C ≠ hash) :
    parse reg ra (toBytesBE 2 code ++ (toBytesBE 4 len ++ (hash ++
        (toBytesBE 8 ts ++ (idB ++ C))))) = .error .hashMismatch := by
  rw [parse_frame_eval reg ra code len ts hash idB C l32 l16, if_pos hne]

theorem parse_frame_sizeMismatch (reg : Nat → Option MessageType)
    (ra code len ts : Nat) (hash idB C : Bytes)
    (l32 : hash.length = 32) (l16 : idB.length = 16)
    (heq : sha256 C = hash) (hlen : len < 4294967296) (hne : C.length ≠ len) :
    parse reg ra (toBytesBE 2 code ++ (toBytesBE 4 len ++ (hash ++
        (toBytesBE 8 ts ++ (idB ++ C))))) = .error .sizeMismatch := by
  rw [parse_frame_eval reg ra code len ts hash idB C l32 l16]
  rw [if_neg (by simp [heq])]
  rw [fromBytesBE_toBytesBE 4 len (by omega), if_pos hne]

/-! ### Claims C1 – C4: the wire codec -/

/-- A string in the canonical form `Request.parse` emits for a request id:
the lowercase hyphenated (8-4-4-4-12) hex rendering of 16 bytes.  This is
the form of ids generated by `str(uuid.uuid4())`. -/
def IsCanonicalUuid (s : String) : Prop :=
  ∃ bs : Bytes, bs.length = 16 ∧ (∀ b ∈ bs, b < 256) ∧ s = renderUuid bs

/-- Claim C1, amended.  For every registered message type, every payload of
length at most `2 ^ 32 - 1` and every correlation id, `Request.parse` of the
frame produced by `Request.compile` succeeds with the request's type code,
the original payload (including the empty payload, whose header digest is
the SHA-256 of the empty byte string), and — amendment — the decoded
`request_id` equals the original id whenever the id is a *canonically
hyphenated lowercase* 32-hex-digit string; a 32-hex id written without
hyphens (or with uppercase digits) is re-rendered in canonical hyphenated
lowercase form and therefore differs (see `claim1_counterexample`). -/
theorem claim1_roundtrip (md5 : String → Bytes) (reg : Nat → Option MessageType)
    (ra now : Nat) (req : Request) (frame : Bytes) (t : MessageType)
    (hmd5 : ∀ s, (md5 s).length = 16)
    (hwf : RegistryWF reg)
    (hreg : reg req.type.code = some t)
    (hframe : compile md5 now req = .ok frame) :
    parse reg ra frame = .ok ⟨t, req.content, fromBytesBE (toBytesBE 8 now),
        sha256 req.content, ra, renderUuid (requestIdBytes md5 req.request_id)⟩ ∧
      t.code = req.type.code ∧
      (IsCanonicalUuid req.request_id →
        renderUuid (requestIdBytes md5 req.request_id) = req.request_id) := by
  obtain ⟨hmax, hfr⟩ := compile_ok_inv md5 now req frame hframe
  subst hfr
  have hcode : req.type.code < 65536 := by
    have := (hwf _ _ hreg).2
    omega
  refine ⟨?_, (hwf _ _ hreg).1, ?_⟩
  · exact parse_frame_ok reg ra req.type.code req.content.length now
      (sha256 req.content) (requestIdBytes md5 req.request_id) req.content t
      (sha256_length _) (requestIdBytes_length md5 hmd5 _) rfl rfl hmax hreg hcode
  · rintro ⟨bs, hl, hb, hid⟩
    rw [hid, requestIdBytes_renderUuid md5 bs hl hb]

/-- Claim C1 counterexample.  The id `"00112233445566778899aabbccddeeff"` is
a 32-hex-digit string without hyphens, so the original claim asserts it
round-trips verbatim; in fact `Request.parse` re-renders it with hyphens
inserted, and the decoded id differs from the original. -/
theorem claim1_counterexample :
    (compile md5Stub 7 ⟨PING, [], "00112233445566778899aabbccddeeff"⟩).map
        (parse systemRegistry 9) =
      .ok (.ok ⟨PING, [], 7, sha256 [], 9,
        "00112233-4455-6677-8899-aabbccddeeff"⟩) ∧
    ("00112233-4455-6677-8899-aabbccddeeff" : String) ≠
      "00112233445566778899aabbccddeeff" :=
  ⟨rfl, by decide⟩

/-- Witness for C1 at a concrete frame: type `PING`, payload `[1, 2]`,
canonical id. -/
theorem claim1_witness :
    parse systemRegistry 9 [0, 0, 0, 0, 0, 2, 161, 40, 113, 254, 226, 16, 251,
        134, 25, 41, 30, 174, 161, 148, 88, 28, 189, 37, 49, 228, 178, 55, 89,
        210, 37, 246, 128, 105, 35, 246, 50, 34, 0, 0, 0, 0, 0, 0, 0, 7, 0, 17,
        34, 51, 68, 85, 102, 119, 136, 153, 170, 187, 204, 221, 238, 255, 1, 2] =
      .ok ⟨PING, [1, 2], fromBytesBE (toBytesBE 8 7), sha256 [1, 2], 9,
        renderUuid (requestIdBytes md5Stub "00112233-4455-6677-8899-aabbccddeeff")⟩ ∧
      PING.code = PING.code ∧
      (IsCanonicalUuid "00112233-4455-6677-8899-aabbccddeeff" →
        renderUuid (requestIdBytes md5Stub "00112233-4455-6677-8899-aabbccddeeff") =
          "00112233-4455-6677-8899-aabbccddeeff") :=
  claim1_roundtrip md5Stub systemRegistry 9 7
    ⟨PING, [1, 2], "00112233-4455-6677-8899-aabbccddeeff"⟩
    [0, 0, 0, 0, 0, 2, 161, 40, 113, 254, 226, 16, 251, 134, 25, 41, 30, 174,
     161, 148, 88, 28, 189, 37, 49, 228, 178, 55, 89, 210, 37, 246, 128, 105,
     35, 246, 50, 34, 0, 0, 0, 0, 0, 0, 0, 7, 0, 17, 34, 51, 68, 85, 102, 119,
     136, 153, 170, 187, 204, 221, 238, 255, 1, 2]
    PING (fun _ => rfl) systemRegistry_wf rfl rfl

/-- Claim C2, amended.  Appending a non-empty byte string to an encoded
frame makes `Request.parse` fail — but because the digest is checked
*before* the declared length (request.py lines 128–140), the reported
failure is a digest-mismatch error whenever the SHA-256 of the extended
payload differs from that of the original payload (the generic case); a
length-mismatch error is reported only in the degenerate case where the
two digests collide. -/
theorem claim2_trailing_bytes (md5 : String → Bytes) (reg : Nat → Option MessageType)
    (ra now : Nat) (req : Request) (frame extra : Bytes)
    (hmd5 : ∀ s, (md5 s).length = 16)
    (hframe : compile md5 now req = .ok frame)
    (hextra : extra ≠ []) :
    parse reg ra (frame ++ extra) =
      if sha256 (req.content ++ extra) = sha256 req.content
      then .error .sizeMismatch
      else .error .hashMismatch := by
  obtain ⟨hmax, hfr⟩ := compile_ok_inv md5 now req frame hframe
  subst hfr
  have hassoc : (toBytesBE 2 req.type.code ++ (toBytesBE 4 req.content.length ++
      (sha256 req.content ++ (toBytesBE 8 now ++
      (requestIdBytes md5 req.request_id ++ req.content))))) ++ extra =
      toBytesBE 2 req.type.code ++ (toBytesBE 4 req.content.length ++
      (sha256 req.content ++ (toBytesBE 8 now ++
      (requestIdBytes md5 req.request_id ++ (req.content ++ extra))))) := by
    simp [List.append_assoc]
  rw [hassoc, parse_frame_eval reg ra req.type.code req.content.length now
    (sha256 req.content) (requestIdBytes md5 req.request_id) (req.content ++ extra)
    (sha256_length _) (requestIdBytes_length md5 hmd5 _)]
  by_cases hc : sha256 (req.content ++ extra) = sha256 req.content
  · rw [if_pos hc, if_neg (by simp [hc]),
      fromBytesBE_toBytesBE 4 _ (by omega), if_pos]
    rw [List.length_append]
    have : extra.length ≠ 0 := fun h0 => hextra (List.length_eq_zero.mp h0)
    omega
  · rw [if_pos hc, if_neg hc]

/-- Claim C2 counterexample.  Appending one byte to the frame of an
empty-payload `PING` makes `Request.parse` fail with a *hash* mismatch, not
the length mismatch the claim asserts: the digest check runs first and
`sha256 [0] ≠ sha256 []`. -/
theorem claim2_counterexample :
    parse systemRegistry 9 (((compile md5Stub 7
        ⟨PING, [], "00112233-4455-6677-8899-aabbccddeeff"⟩).toOption.getD []) ++ [0]) =
      .error .hashMismatch ∧
    RequestError.hashMismatch ≠ RequestError.sizeMismatch :=
  ⟨rfl, by decide⟩

/-- Witness for C2 at a concrete frame: empty payload, one trailing zero
byte. -/
theorem claim2_witness :
    parse systemRegistry 9 ([0, 0, 0, 0, 0, 0, 227, 176, 196, 66, 152, 252, 28,
        20, 154, 251, 244, 200, 153, 111, 185, 36, 39, 174, 65, 228, 100, 155,
        147, 76, 164, 149, 153, 27, 120, 82, 184, 85, 0, 0, 0, 0, 0, 0, 0, 7, 0,
        17, 34, 51, 68, 85, 102, 119, 136, 153, 170, 187, 204, 221, 238, 255] ++ [0]) =
      if sha256 ([] ++ [0]) = sha256 [] then .error .sizeMismatch
      else .error .hashMismatch :=
  claim2_trailing_bytes md5Stub systemRegistry 9 7
    ⟨PING, [], "00112233-4455-6677-8899-aabbccddeeff"⟩
    [0, 0, 0, 0, 0, 0, 227, 176, 196, 66, 152, 252, 28, 20, 154, 251, 244, 200,
     153, 111, 185, 36, 39, 174, 65, 228, 100, 155, 147, 76, 164, 149, 153, 27,
     120, 82, 184, 85, 0, 0, 0, 0, 0, 0, 0, 7, 0, 17, 34, 51, 68, 85, 102, 119,
     136, 153, 170, 187, 204, 221, 238, 255]
    [0] (fun _ => rfl) rfl (by decide)

/-- Claim C3.  Changing the byte at any position of the payload region of an
encoded frame to a different value makes `Request.parse` fail with a
digest-mismatch error.  The hypothesis `hdigest` is the instance of SHA-256
collision-freeness the claim implicitly relies on: the digest of the
modified payload differs from the digest of the original payload (checked
concretely in `claim3_witness`; refuting it would require exhibiting a
SHA-256 collision). -/
theorem claim3_payload_flip (md5 : String → Bytes) (reg : Nat → Option MessageType)
    (ra now : Nat) (req : Request) (frame : Bytes) (i newb : Nat)
    (hmd5 : ∀ s, (md5 s).length = 16)
    (hframe : compile md5 now req = .ok frame)
    (hi : i < req.content.length)
    (hflip : newb ≠ req.content.getD i 0)
    (hdigest : sha256 (req.content.set i newb) ≠ sha256 req.content) :
    parse reg ra (frame.set (62 + i) newb) = .error .hashMismatch := by
  obtain ⟨hmax, hfr⟩ := compile_ok_inv md5 now req frame hframe
  subst hfr
  have hsplit : toBytesBE 2 req.type.code ++ (toBytesBE 4 req.content.length ++
      (sha256 req.content ++ (toBytesBE 8 now ++
      (requestIdBytes md5 req.request_id ++ req.content)))) =
      (toBytesBE 2 req.type.code ++ (toBytesBE 4 req.content.length ++
      (sha256 req.content ++ (toBytesBE 8 now ++
      requestIdBytes md5 req.request_id)))) ++ req.content := by
    simp [List.append_assoc]
  have hHlen : (toBytesBE 2 req.type.code ++ (toBytesBE 4 req.content.length ++
      (sha256 req.content ++ (toBytesBE 8 now ++
      requestIdBytes md5 req.request_id)))).length = 62 := by
    simp [List.length_append, toBytesBE_length, sha256_length,
      requestIdBytes_length md5 hmd5]
  have hset : (toBytesBE 2 req.type.code ++ (toBytesBE 4 req.content.length ++
      (sha256 req.content ++ (toBytesBE 8 now ++
      (requestIdBytes md5 req.request_id ++ req.content))))).set (62 + i) newb =
      toBytesBE 2 req.type.code ++ (toBytesBE 4 req.content.length ++
      (sha256 req.content ++ (toBytesBE 8 now ++
      (requestIdBytes md5 req.request_id ++ req.content.set i newb)))) := by
    rw [hsplit, List.set_append_right _ _ (by rw [hHlen]; omega), hHlen]
    norm_num
  rw [hset]
  exact parse_frame_hashMismatch reg ra req.type.code req.content.length now
    (sha256 req.content) (requestIdBytes md5 req.request_id)
    (req.content.set i newb) (sha256_length _)
    (requestIdBytes_length md5 hmd5 _) hdigest

/-- Witness for C3 at a concrete frame: payload `[1, 2]`, first payload byte
changed from 1 to 9; the two concrete digests differ. -/
theorem claim3_witness :
    parse systemRegistry 9 ([0, 0, 0, 0, 0, 2, 161, 40, 113, 254, 226, 16, 251,
        134, 25, 41, 30, 174, 161, 148, 88, 28, 189, 37, 49, 228, 178, 55, 89,
        210, 37, 246, 128, 105, 35, 246, 50, 34, 0, 0, 0, 0, 0, 0, 0, 7, 0, 17,
        34, 51, 68, 85, 102, 119, 136, 153, 170, 187, 204, 221, 238, 255, 1,
        2].set (62 + 0) 9) = .error .hashMismatch :=
  claim3_payload_flip md5Stub systemRegistry 9 7
    ⟨PING, [1, 2], "00112233-4455-6677-8899-aabbccddeeff"⟩
    [0, 0, 0, 0, 0, 2, 161, 40, 113, 254, 226, 16, 251, 134, 25, 41, 30, 174,
     161, 148, 88, 28, 189, 37, 49, 228, 178, 55, 89, 210, 37, 246, 128, 105,
     35, 246, 50, 34, 0, 0, 0, 0, 0, 0, 0, 7, 0, 17, 34, 51, 68, 85, 102, 119,
     136, 153, 170, 187, 204, 221, 238, 255, 1, 2]
    0 9 (fun _ => rfl) rfl (by decide) (by decide) (by decide)

/-- Claim C4.  `Request.compile` places in the 16-byte correlation-id field
(frame bytes 46–61) the literal bytes of the id when the id with hyphens
stripped is exactly 32 hex digits, and otherwise the 16-byte MD5 digest of
the id's string form (`hashlib.md5` is a parameter of the model; `hmd5`
records that an MD5 digest is 16 bytes). -/
theorem claim4_correlation_encoding (md5 : String → Bytes) (now : Nat)
    (req : Request) (frame : Bytes)
    (hmd5 : ∀ s, (md5 s).length = 16)
    (hframe : compile md5 now req = .ok frame) :
    (frame.drop 46).take 16 =
      if (req.request_id.data.filter (fun c => c ≠ '-')).length = 32 ∧
          (req.request_id.data.filter (fun c => c ≠ '-')).all isHexDigitChar
      then fromhex (req.request_id.data.filter (fun c => c ≠ '-'))
      else md5 req.request_id := by
  obtain ⟨hmax, hfr⟩ := compile_ok_inv md5 now req frame hframe
  subst hfr
  have l2 := toBytesBE_length 2 req.type.code
  have l4 := toBytesBE_length 4 req.content.length
  have l8 := toBytesBE_length 8 now
  have l32 := sha256_length req.content
  have l16 := requestIdBytes_length md5 hmd5 req.request_id
  have d2 := @List.drop_left' _ _
    (toBytesBE 4 req.content.length ++ (sha256 req.content ++
      (toBytesBE 8 now ++ (requestIdBytes md5 req.request_id ++ req.content)))) _ l2
  have d6 : (toBytesBE 2 req.type.code ++ (toBytesBE 4 req.content.length ++
      (sha256 req.content ++ (toBytesBE 8 now ++
      (requestIdBytes md5 req.request_id ++ req.content))))).drop 6 =
      sha256 req.content ++ (toBytesBE 8 now ++
        (requestIdBytes md5 req.request_id ++ req.content)) := by
    have h := List.drop_drop 4 2 (toBytesBE 2 req.type.code ++
      (toBytesBE 4 req.content.length ++ (sha256 req.content ++
      (toBytesBE 8 now ++ (requestIdBytes md5 req.request_id ++ req.content)))))
    rw [d2, List.drop_left' l4] at h
    norm_num at h
    exact h.symm
  have d38 : (toBytesBE 2 req.type.code ++ (toBytesBE 4 req.content.length ++
      (sha256 req.content ++ (toBytesBE 8 now ++
      (requestIdBytes md5 req.request_id ++ req.content))))).drop 38 =
      toBytesBE 8 now ++ (requestIdBytes md5 req.request_id ++ req.content) := by
    have h := List.drop_drop 32 6 (toBytesBE 2 req.type.code ++
      (toBytesBE 4 req.content.length ++ (sha256 req.content ++
      (toBytesBE 8 now ++ (requestIdBytes md5 req.request_id ++ req.content)))))
    rw [d6, List.drop_left' l32] at h
    norm_num at h
    exact h.symm
  have d46 : (toBytesBE 2 req.type.code ++ (toBytesBE 4 req.content.length ++
      (sha256 req.content ++ (toBytesBE 8 now ++
      (requestIdBytes md5 req.request_id ++ req.content))))).drop 46 =
      requestIdBytes md5 req.request_id ++ req.content := by
    have h := List.drop_drop 8 38 (toBytesBE 2 req.type.code ++
      (toBytesBE 4 req.content.length ++ (sha256 req.content ++
      (toBytesBE 8 now ++ (requestIdBytes md5 req.request_id ++ req.content)))))
    rw [d38, List.drop_left' l8] at h
    norm_num at h
    exact h.symm
  rw [d46, List.take_left' l16]
  simp only [requestIdBytes]

/-- Witness for C4 at a concrete frame: the id `"hello"` is not 32 hex
digits, so the field holds the (modelled) MD5 digest of the string. -/
theorem claim4_witness :
    (([0, 0, 0, 0, 0, 0, 227, 176, 196, 66, 152, 252, 28, 20, 154, 251, 244,
        200, 153, 111, 185, 36, 39, 174, 65, 228, 100, 155, 147, 76, 164, 149,
        153, 27, 120, 82, 184, 85, 0, 0, 0, 0, 0, 0, 0, 7, 0, 0, 0, 0, 0, 0, 0,
        0, 0, 0, 0, 0, 0, 0, 0, 0] : Bytes).drop 46).take 16 =
      if (("hello" : String).data.filter (fun c => c ≠ '-')).length = 32 ∧
          (("hello" : String).data.filter (fun c => c ≠ '-')).all isHexDigitChar
      then fromhex (("hello" : String).data.filter (fun c => c ≠ '-'))
      else md5Stub "hello" :=
  claim4_correlation_encoding md5Stub 7 ⟨PING, [], "hello"⟩
    [0, 0, 0, 0, 0, 0, 227, 176, 196, 66, 152, 252, 28, 20, 154, 251, 244, 200,
     153, 111, 185, 36, 39, 174, 65, 228, 100, 155, 147, 76, 164, 149, 153, 27,
     120, 82, 184, 85, 0, 0, 0, 0, 0, 0, 0, 7, 0, 0, 0, 0, 0, 0, 0, 0, 0, 0, 0,
     0, 0, 0, 0, 0]
    (fun _ => rfl) rfl

/-! ### Claim C5: `recv` (`veltix/utils/network.py`) -/

/-- The possible outcomes of the underlying `conn.recv(buf_size)` call:
data returned (empty on clean peer shutdown), `socket.timeout`, one of the
connection exceptions (`ConnectionResetError`, `ConnectionAbortedError`,
`BrokenPipeError`), or any other exception. -/
inductive RecvEvent where
  | data (b : Bytes)
  | timeout
  | connectionIssue
  | unexpectedIssue
deriving DecidableEq

/-- Function `recv` from `veltix/utils/network.py`: returns the received bytes, or
`None` when the connection closed cleanly (empty read), on a socket
timeout, on a connection exception, or on any other exception. -/
def recv : RecvEvent → Option Bytes
  | .data b => if b = [] then none else some b
  | .timeout => none
  | .connectionIssue => none
  | .unexpectedIssue => none

/-- What the per-connection receive loops do with one `recv` result: both
`Client.handle_client` and `Server.handle_client` treat `None` as a
disconnect (log, clean up, break) and process any bytes otherwise. -/
inductive LoopAction where
  | disconnect
  | process (msg : Bytes)
deriving DecidableEq

/-- The `if msg is None: ... break` dispatch shared by both receive loops. -/
def handleRecvResult : Option Bytes → LoopAction
  | none => .disconnect
  | some m => .process m

/-- Claim C5, amended.  `recv` returns `None` on clean peer shutdown — but a
receive timeout *also* returns `None`: the two outcomes are not
distinguished at `recv`'s interface, and the receive loops treat the `None`
of a timeout exactly like a disconnect.  Non-empty data is returned as-is. -/
theorem claim5_recv :
    recv (RecvEvent.data []) = none ∧
    recv RecvEvent.timeout = none ∧
    handleRecvResult (recv RecvEvent.timeout) = LoopAction.disconnect ∧
    (∀ b : Bytes, b ≠ [] → recv (RecvEvent.data b) = some b) := by
  refine ⟨rfl, rfl, rfl, ?_⟩
  intro b hb
  simp [recv, hb]

/-- Witness for C5: a non-empty read is returned as data. -/
theorem claim5_witness :
    recv (RecvEvent.data [5]) = some [5] :=
  claim5_recv.2.2.2 [5] (by decide)

/-- Claim C5 counterexample.  The claim asserts the peer-shutdown outcome is
distinguished from a receive timeout and that a timeout does not indicate
disconnection; in the code both return the same `None`, and the receive
loops turn that `None` into a disconnect. -/
theorem claim5_counterexample :
    recv RecvEvent.timeout = recv (RecvEvent.data []) ∧
    handleRecvResult (recv RecvEvent.timeout) = LoopAction.disconnect :=
  ⟨rfl, rfl⟩

/-! ### Claim C6: `send_and_wait` cleanup of the pending-request table -/

/-- The pending-request table: the Python dict
`_pending_requests : dict[str, Queue]`, as an association list from
correlation id to a queue token. -/
abbrev PendingMap := List (String × Nat)

/-- Dict assignment `d[k] = v` (keys are unique, so insertion replaces). -/
def pmSet (m : PendingMap) (k : String) (v : Nat) : PendingMap :=
  (k, v) :: m.filter (fun p => p.1 ≠ k)

/-- Dict deletion `del d[k]` / `d.pop(k, None)`. -/
def pmDel (m : PendingMap) (k : String) : PendingMap :=
  m.filter (fun p => p.1 ≠ k)

/-- Dict membership `k in d`. -/
def pmContains (m : PendingMap) (k : String) : Bool :=
  m.any (fun p => p.1 = k)

theorem pmContains_pmDel (m : PendingMap) (k : String) :
    pmContains (pmDel m k) k = false := by
  simp only [pmContains, pmDel]
  rw [Bool.eq_false_iff]
  intro hany
  rw [List.any_eq_true] at hany
  obtain ⟨p, hp, hdec⟩ := hany
  have hf := (List.mem_filter.mp hp).2
  simp at hf hdec
  exact hf hdec

theorem pmContains_pmSet (m : PendingMap) (k : String) (v : Nat) :
    pmContains (pmSet m k v) k = true := by
  simp [pmContains, pmSet]

/-- Python `Client.send_and_wait` (client.py lines 120–154) as a state transition
on the pending map: register the queue under the request id; if the send
fails, delete the entry and return `None`; otherwise block on the queue
(`wait` is the outcome: a response, or `None` for `Empty`) and remove the
entry in the `finally` block (`pop(request_id, None)`). -/
def clientSendAndWait (pending : PendingMap) (id : String) (q : Nat)
    (sendOk : Bool) (wait : Option Response) : Option Response × PendingMap :=
  let p1 := pmSet pending id q
  if sendOk = false then (none, pmDel p1 id)
  else
    match wait with
    | some response => (some response, pmDel p1 id)
    | none => (none, pmDel p1 id)

/-- Python `Server.send_and_wait` (server.py lines 118–162): same shape, with the
`finally` block deleting the entry only if still present. -/
def serverSendAndWait (pending : PendingMap) (id : String) (q : Nat)
    (sendOk : Bool) (wait : Option Response) : Option Response × PendingMap :=
  let p1 := pmSet pending id q
  if sendOk = false then (none, pmDel p1 id)
  else
    let fin := if pmContains p1 id = true then pmDel p1 id else p1
    match wait with
    | some response => (some response, fin)
    | none => (none, fin)

/-- Claim C6.  After `send_and_wait` returns — response delivered, timeout,
or send failure — the pending-request map no longer contains the request's
correlation id, for both the Client's and the Server's implementation. -/
theorem claim6_send_and_wait_cleanup (pending : PendingMap) (id : String)
    (q : Nat) (sendOk : Bool) (wait : Option Response) :
    pmContains (clientSendAndWait pending id q sendOk wait).2 id = false ∧
    pmContains (serverSendAndWait pending id q sendOk wait).2 id = false := by
  constructor
  · simp only [clientSendAndWait]
    by_cases h : sendOk = false
    · simp [h, pmContains_pmDel]
    · cases wait <;> simp [h, pmContains_pmDel]
  · simp only [serverSendAndWait, pmContains_pmSet]
    by_cases h : sendOk = false
    · simp [h, pmContains_pmDel]
    · cases wait <;> simp [h, pmContains_pmSet, pmContains_pmDel]

/-! ### Claim C7: latency-probe interception in the receive loops -/

/-- Which path one successfully decoded message takes through a receive
loop: auto-reply to a probe, delivery to a waiting `send_and_wait`, the
user callback, or nothing (no callback bound). -/
inductive HandleAction where
  | autoPong (pong : Request)
  | deliverPending (id : String)
  | callback
  | drop
deriving DecidableEq

/-- The dispatch of `Client.handle_client` (client.py lines 198–216) on one
decoded response: `PING` is answered with a `PONG` carrying the same
request id and the loop continues; otherwise a pending entry matching the
id is served; otherwise the `on_recv` callback (when bound) runs. -/
def clientHandleMessage (pending : PendingMap) (hasOnRecv : Bool)
    (resp : Response) : HandleAction :=
  if resp.type.code = PING.code then .autoPong ⟨PONG, [], resp.request_id⟩
  else if pmContains pending resp.request_id then .deliverPending resp.request_id
  else if hasOnRecv then .callback
  else .drop

/-- The dispatch of `Server.handle_client` (server.py lines 277–304): the
same structure as the client's. -/
def serverHandleMessage (pending : PendingMap) (hasOnRecv : Bool)
    (resp : Response) : HandleAction :=
  if resp.type.code = PING.code then .autoPong ⟨PONG, [], resp.request_id⟩
  else if pmContains pending resp.request_id then .deliverPending resp.request_id
  else if hasOnRecv then .callback
  else .drop

/-- Claim C7.  A decoded frame whose type code is the reserved latency-probe
code 0 is answered — in both receive loops — by a probe-reply (`PONG`, code
1) carrying the same correlation id, and takes no other path: it is never
delivered to the pending-request table nor passed to the user callback
(the result is `autoPong`, a constructor distinct from `deliverPending`
and `callback`). -/
theorem claim7_ping_intercepted (pending : PendingMap) (hasOnRecv : Bool)
    (resp : Response) (h : resp.type.code = 0) :
    clientHandleMessage pending hasOnRecv resp =
        .autoPong ⟨PONG, [], resp.request_id⟩ ∧
      serverHandleMessage pending hasOnRecv resp =
        .autoPong ⟨PONG, [], resp.request_id⟩ ∧
      PONG.code = 1 ∧ PING.code = 0 := by
  refine ⟨?_, ?_, rfl, rfl⟩ <;>
    simp [clientHandleMessage, serverHandleMessage, h, PING]

/-- Witness for C7 at a concrete probe frame. -/
theorem claim7_witness :
    clientHandleMessage [] false ⟨PING, [], 0, [], 0, "abc"⟩ =
        .autoPong ⟨PONG, [], "abc"⟩ ∧
      serverHandleMessage [] false ⟨PING, [], 0, [], 0, "abc"⟩ =
        .autoPong ⟨PONG, [], "abc"⟩ ∧
      PONG.code = 1 ∧ PING.code = 0 :=
  claim7_ping_intercepted [] false ⟨PING, [], 0, [], 0, "abc"⟩ rfl

/-! ### Claim C8: `Sender.broadcast` -/

/-- The per-target loop of `Sender.broadcast` (sender.py lines 128–144):
skip targets in the exclusion set, send to the rest, collecting each
attempted target with its send result.  Targets are socket identifiers,
`sendOk` the outcome of `Sender.send` per target. -/
def broadcastLoop (sendOk : Nat → Bool) (exceptSet : List Nat) :
    List Nat → List (Nat × Bool)
  | [] => []
  | c :: rest =>
    if exceptSet.contains c then broadcastLoop sendOk exceptSet rest
    else (c, sendOk c) :: broadcastLoop sendOk exceptSet rest

/-- Python `Sender.broadcast` (sender.py lines 92–156): CLIENT mode refuses; an
empty target list is vacuous success; otherwise the aggregated result is
`all(results)` over the non-excluded sends. -/
def broadcast (sendOk : Nat → Bool) (isClient : Bool) (listOfClient : List Nat)
    (exceptClients : List Nat) : Bool :=
  if isClient then false
  else if listOfClient = [] then true
  else ((broadcastLoop sendOk exceptClients listOfClient).map Prod.snd).all
    (fun b => b)

theorem broadcastLoop_eq (sendOk : Nat → Bool) (exceptSet : List Nat) :
    ∀ targets : List Nat, broadcastLoop sendOk exceptSet targets =
      (targets.filter (fun c => !(exceptSet.contains c))).map
        (fun c => (c, sendOk c))
  | [] => rfl
  | c :: rest => by
    by_cases h : c ∈ exceptSet <;>
      simp [broadcastLoop, List.filter_cons, h,
        broadcastLoop_eq sendOk exceptSet rest]

/-- Claim C8.  In SERVER mode, `broadcast` attempts a send to exactly the
targets not in the exclusion set (in order, per occurrence), and reports
success iff every one of those sends succeeded; a target list that is
empty, or empty after exclusion, gives vacuous success (the universally
quantified right-hand side is vacuously true). -/
theorem claim8_broadcast (sendOk : Nat → Bool) (targets exceptClients : List Nat) :
    (broadcastLoop sendOk exceptClients targets).map Prod.fst =
      targets.filter (fun c => !(exceptClients.contains c)) ∧
    (broadcast sendOk false targets exceptClients = true ↔
      ∀ c ∈ targets.filter (fun c => !(exceptClients.contains c)),
        sendOk c = true) := by
  constructor
  · rw [broadcastLoop_eq]
    simp [List.map_map, Function.comp_def]
  · simp only [broadcast]
    by_cases ht : targets = []
    · subst ht
      simp
    · rw [if_neg (by simp), if_neg ht, broadcastLoop_eq]
      simp [List.all_map, List.all_eq_true, Function.comp]

/-! ### Claim C9: bounded concurrency of the accept loop -/

/-- One transition of the server's connection membership (`self.clients`).
`accept`: the accept loop (server.py lines 204–231) admits a connection
only when the current peer count is strictly below `max_connection`, then
appends the new peer.  `closeClient`: `Server.close_client` (lines
338–344) removes a present peer.  Peers are identifiers. -/
inductive ServerStep (K : Nat) : List Nat → List Nat → Prop where
  | accept (s : List Nat) (c : Nat) : s.length < K → ServerStep K s (s ++ [c])
  | closeClient (s : List Nat) (c : Nat) : c ∈ s → ServerStep K s (s.erase c)

/-- States of `self.clients` reachable from the freshly initialized server
(empty list) by accepts and client closes, in any interleaving. -/
inductive ServerReachable (K : Nat) : List Nat → Prop where
  | init : ServerReachable K []
  | step (s s' : List Nat) :
      ServerReachable K s → ServerStep K s s' → ServerReachable K s'

/-- Claim C9.  A server configured with `max_connection = K` never holds
more than `K` simultaneous peers: every reachable state of the clients
list has at most `K` elements (the accept step is guarded by
`current_client_count < K`, so a further connection is admitted only after
a removal). -/
theorem claim9_bounded_connections (K : Nat) (s : List Nat)
    (h : ServerReachable K s) : s.length ≤ K := by
  induction h with
  | init => exact Nat.zero_le K
  | step s s' hr hst ih =>
    cases hst with
    | accept c hlt =>
      simp only [List.length_append, List.length_cons, List.length_nil]
      omega
    | closeClient c hmem => exact le_trans (List.length_erase_le _ _) ih

/-- Witness for C9: with `K = 2`, the state after one accept has at most 2
peers. -/
theorem claim9_witness : ([7] : List Nat).length ≤ 2 :=
  claim9_bounded_connections 2 [7]
    (ServerReachable.step [] [7] ServerReachable.init
      (ServerStep.accept [] 7 (by decide)))

/-! ### Claim C10: totality of `Sender.send` -/

/-- The outcome of `target.sendall`: success, or one of the exception
classes distinguished by `Sender.send`'s handlers (sender.py lines 85–90),
all of which are caught and reported as `False`. -/
inductive WriteOutcome where
  | ok
  | connectionResetError
  | brokenPipeError
  | otherException
deriving DecidableEq

/-- Python `Sender.send` (sender.py lines 58–90): pick the target (own connection
in CLIENT mode, the `client` argument in SERVER mode); `False` when it is
missing; compile the request inside the `try` (a `RequestError` — content
over `2 ^ 32 - 1` bytes — is caught by `except Exception` and reported as
`False`); write, mapping every write exception to `False`. -/
def send (md5 : String → Bytes) (now : Nat) (isClient : Bool)
    (conn clientArg : Option Nat) (req : Request) (w : WriteOutcome) : Bool :=
  match if isClient then conn else clientArg with
  | none => false
  | some _ =>
    match compile md5 now req with
    | .error _ => false
    | .ok _ =>
      match w with
      | .ok => true
      | .connectionResetError => false
      | .brokenPipeError => false
      | .otherException => false

/-- Claim C10.  `Sender.send` is total at its interface: it returns a
boolean for every combination of target, request and write outcome —
missing target, oversized payload (encoding failure) and write errors all
map to `False`, and it returns `True` exactly when a target exists, the
payload fits in `2 ^ 32 - 1` bytes, and the write succeeds. -/
theorem claim10_send_total (md5 : String → Bytes) (now : Nat) (isClient : Bool)
    (conn clientArg : Option Nat) (req : Request) (w : WriteOutcome) :
    send md5 now isClient conn clientArg req w = true ↔
      ((if isClient then conn else clientArg).isSome = true ∧
        req.content.length ≤ 4294967295 ∧ w = WriteOutcome.ok) := by
  simp only [send]
  cases hT : (if isClient then conn else clientArg) with
  | none => simp
  | some x =>
    by_cases hlen : req.content.length ≤ 4294967295
    · rw [compile_eq_ok md5 now req hlen]
      cases w <;> simp [hlen]
    · have hbad : compile md5 now req = .error .contentTooLarge := by
        simp only [compile]
        rw [if_pos (by omega)]
      rw [hbad]
      simp [hlen]

end Veltix
